import Mathlib

/-!
Shallow embedding of `build.py`, the build orchestrator of unicorn.js, together
with proofs about its pipeline logic.

Modelling conventions:
* Python `str` values are Lean `String`s (paths, tokens, messages); file
  contents are modelled as `List Char`, i.e. as the sequence of code points a
  Python `str` is.
* Python's string comparison (used by `sorted`) is code-point lexicographic;
  it is embedded as `pyLeChars` / `pyLeP` below, and `sorted` as
  `List.insertionSort pyLeP` (over a linear order every sorting algorithm
  returns the same, unique, sorted permutation).
* Filesystem and subprocess effects are embedded as an explicit `World`
  oracle plus a trace of `Event`s; exceptions become `Except Err`.
-/

/-- Code-point lexicographic order on character lists: the order Python uses
to compare strings. -/
def pyLeChars : List Char → List Char → Bool
  | [], _ => true
  | _ :: _, [] => false
  | a :: as, b :: bs =>
    if a < b then true
    else if b < a then false
    else pyLeChars as bs

/-- Propositional form of the Python string order. -/
def pyLeP (a b : String) : Prop := pyLeChars a.data b.data = true

instance : DecidableRel pyLeP := fun a b => by unfold pyLeP; infer_instance

/-- Model of Python's `sorted` on a list of strings. -/
def pySorted (l : List String) : List String := List.insertionSort pyLeP l

theorem pyLeChars_refl (l : List Char) : pyLeChars l l = true := by
  induction l with
  | nil => rfl
  | cons a as ih => simp [pyLeChars, ih]

theorem pyLeChars_total (a b : List Char) :
    pyLeChars a b = true ∨ pyLeChars b a = true := by
  induction a generalizing b with
  | nil => left; rfl
  | cons x xs ih =>
    cases b with
    | nil => right; rfl
    | cons y ys =>
      rcases lt_trichotomy x y with h | h | h
      · left; simp [pyLeChars, h]
      · subst h
        rcases ih ys with h' | h'
        · left; simp [pyLeChars, h']
        · right; simp [pyLeChars, h']
      · right; simp [pyLeChars, h]

theorem pyLeChars_antisymm {a b : List Char} (h1 : pyLeChars a b = true)
    (h2 : pyLeChars b a = true) : a = b := by
  induction a generalizing b with
  | nil =>
    cases b with
    | nil => rfl
    | cons y ys => simp [pyLeChars] at h2
  | cons x xs ih =>
    cases b with
    | nil => simp [pyLeChars] at h1
    | cons y ys =>
      rcases lt_trichotomy x y with h | h | h
      · simp [pyLeChars, h, asymm h] at h2
      · subst h
        simp only [pyLeChars, lt_irrefl, if_false] at h1 h2
        exact congrArg₂ List.cons rfl (ih h1 h2)
      · simp [pyLeChars, h, asymm h] at h1

theorem pyLeChars_trans {a b c : List Char} (h1 : pyLeChars a b = true)
    (h2 : pyLeChars b c = true) : pyLeChars a c = true := by
  induction a generalizing b c with
  | nil => rfl
  | cons x xs ih =>
    cases b with
    | nil => simp [pyLeChars] at h1
    | cons y ys =>
      cases c with
      | nil => simp [pyLeChars] at h2
      | cons z zs =>
        rcases lt_trichotomy x y with hxy | hxy | hxy
        · rcases lt_trichotomy y z with hyz | hyz | hyz
          · simp [pyLeChars, lt_trans hxy hyz]
          · subst hyz; simp [pyLeChars, hxy]
          · simp [pyLeChars, hyz, asymm hyz] at h2
        · subst hxy
          rcases lt_trichotomy x z with hyz | hyz | hyz
          · simp [pyLeChars, hyz]
          · subst hyz
            simp only [pyLeChars, lt_irrefl, if_false] at h1 h2 ⊢
            exact ih h1 h2
          · simp [pyLeChars, hyz, asymm hyz] at h2
        · simp [pyLeChars, hxy, asymm hxy] at h1

instance : IsTotal String pyLeP := ⟨fun a b => pyLeChars_total a.data b.data⟩

instance : IsTrans String pyLeP := ⟨fun _ _ _ => pyLeChars_trans⟩

instance : IsAntisymm String pyLeP :=
  ⟨fun a b h1 h2 => String.ext (pyLeChars_antisymm h1 h2)⟩

instance : IsRefl String pyLeP := ⟨fun a => pyLeChars_refl a.data⟩

theorem pySorted_sorted (l : List String) : List.Sorted pyLeP (pySorted l) :=
  List.sorted_insertionSort pyLeP l

theorem pySorted_perm (l : List String) : (pySorted l).Perm l :=
  List.perm_insertionSort pyLeP l

theorem mem_pySorted {t : String} {l : List String} : t ∈ pySorted l ↔ t ∈ l :=
  (pySorted_perm l).mem_iff

theorem pySorted_eq_of_perm {l₁ l₂ : List String} (h : l₁.Perm l₂) :
    pySorted l₁ = pySorted l₂ :=
  List.eq_of_perm_of_sorted
    (((pySorted_perm l₁).trans h).trans (pySorted_perm l₂).symm)
    (pySorted_sorted l₁) (pySorted_sorted l₂)

/-- Helper: appending distinct suffixes to a common prefix yields distinct
strings. -/
theorem append_ne_of_ne (root : String) {a b : String} (h : a ≠ b) :
    root ++ a ≠ root ++ b := by
  intro he
  have hd : root.data ++ a.data = root.data ++ b.data := by
    have h' := congrArg String.data he
    rwa [String.data_append, String.data_append] at h'
  exact h (String.ext (List.append_cancel_left hd))

/-! ## Compiled-in catalogs of `build.py` -/

/-- Catalog `EXPORTED_FUNCTIONS` of `build.py`. -/
def EXPORTED_FUNCTIONS : List String :=
  ["_uc_version", "_uc_arch_supported", "_uc_open", "_uc_close", "_uc_query",
   "_uc_errno", "_uc_strerror", "_uc_reg_write", "_uc_reg_read",
   "_uc_reg_write_batch", "_uc_reg_read_batch", "_uc_mem_write",
   "_uc_mem_read", "_uc_emu_start", "_uc_emu_stop", "_uc_hook_add",
   "_uc_hook_del", "_uc_mem_map", "_uc_mem_map_ptr", "_uc_mem_unmap",
   "_uc_mem_protect", "_uc_mem_regions", "_uc_context_alloc", "_uc_free",
   "_uc_context_save", "_uc_context_restore", "_malloc", "_free"]

/-- Catalog `EXPORTED_RUNTIME_METHODS` of `build.py`. -/
def EXPORTED_RUNTIME_METHODS : List String :=
  ["ccall", "getValue", "setValue", "addFunction", "removeFunction",
   "writeArrayToMemory"]

/-- Catalog `CONSTANT_FILES` of `build.py` (paths relative to the vendored
unicorn tree). -/
def CONSTANT_FILES : List String :=
  ["bindings/python/unicorn/arm64_const.py",
   "bindings/python/unicorn/arm_const.py",
   "bindings/python/unicorn/m68k_const.py",
   "bindings/python/unicorn/mips_const.py",
   "bindings/python/unicorn/ppc_const.py",
   "bindings/python/unicorn/riscv_const.py",
   "bindings/python/unicorn/s390x_const.py",
   "bindings/python/unicorn/sparc_const.py",
   "bindings/python/unicorn/tricore_const.py",
   "bindings/python/unicorn/x86_const.py",
   "bindings/python/unicorn/unicorn_const.py"]

/-- Catalog `SUPPORTED_ARCHES` of `build.py`; a Python `set`, modelled as the
list of its elements (only membership is ever used). -/
def SUPPORTED_ARCHES : List String :=
  ["x86", "arm", "aarch64", "riscv", "mips", "sparc", "m68k", "ppc", "s390x",
   "tricore"]

/-- Path `ROOT_DIR / "unicorn"`; `root` abstracts the runtime-determined
`ROOT_DIR`. -/
def UNICORN_DIR (root : String) : String := root ++ "/unicorn"

/-- Path `ROOT_DIR / "src"`. -/
def SRC_DIR (root : String) : String := root ++ "/src"

/-- Path `ROOT_DIR / "patch"`. -/
def PATCH_DIR (root : String) : String := root ++ "/patch"

/-- Catalog `UNICORN_PATCHES` of `build.py`. -/
def UNICORN_PATCHES (root : String) : List String :=
  [PATCH_DIR root ++ "/" ++ "unicorn-cmakelists-emscripten.patch",
   PATCH_DIR root ++ "/" ++ "unicorn-qemu-configure-emscripten.patch",
   PATCH_DIR root ++ "/" ++ "unicorn-qemu-int128-emscripten.patch",
   PATCH_DIR root ++ "/" ++ "unicorn-qemu-timer-emscripten.patch"]

/-! ## Validation and build suffix -/

/-- The expression `sorted(set(targets) - SUPPORTED_ARCHES)` of
`validate_targets`. -/
def unknown_of (targets : List String) : List String :=
  pySorted ((targets.filter (fun t => decide (t ∉ SUPPORTED_ARCHES))).dedup)

/-- Error kinds of `build.py`: `ValueError`, `RuntimeError` and
`subprocess.CalledProcessError` (carrying the command and its exit status). -/
inductive Err where
  | valueError (msg : String)
  | runtimeError (msg : String)
  | calledProcessError (cmd : List String) (code : Nat)
  deriving DecidableEq, Repr

/-- Embedding of `validate_targets` of `build.py`; the value bound to its
local `unknown` is the separate definition `unknown_of`. -/
def validate_targets (targets : List String) : Except Err Unit :=
  if unknown_of targets = [] then Except.ok ()
  else Except.error (Err.valueError
    ("Unsupported architecture(s): " ++
      String.intercalate ", " (unknown_of targets)))

/-- Embedding of `suffix_for` of `build.py`. -/
def suffix_for (targets : List String) : String :=
  if targets = [] then ""
  else "-" ++ String.intercalate "-" (pySorted targets)

theorem mem_unknown_of {t : String} {S : List String} :
    t ∈ unknown_of S ↔ t ∈ S ∧ t ∉ SUPPORTED_ARCHES := by
  unfold unknown_of
  rw [mem_pySorted, List.mem_dedup, List.mem_filter]
  simp

/-- C1: `validate_targets` succeeds iff every token of the input belongs to
`SUPPORTED_ARCHES`; otherwise it raises a single `ValueError` whose reported
list is exactly the set difference `S \ SUPPORTED_ARCHES` — every unknown
entry at once, sorted in the Python string order and without duplicates. -/
theorem validate_targets_correct (S : List String) :
    (validate_targets S = Except.ok () ↔ ∀ t ∈ S, t ∈ SUPPORTED_ARCHES) ∧
    (∀ t, t ∈ unknown_of S ↔ t ∈ S ∧ t ∉ SUPPORTED_ARCHES) ∧
    List.Sorted pyLeP (unknown_of S) ∧
    (unknown_of S).Nodup ∧
    (∀ e, validate_targets S = Except.error e →
      e = Err.valueError
        ("Unsupported architecture(s): " ++
          String.intercalate ", " (unknown_of S))) := by
  refine ⟨?_, fun t => mem_unknown_of, pySorted_sorted _, ?_, ?_⟩
  · unfold validate_targets
    split
    · next h =>
      simp only [true_iff]
      intro t ht
      by_contra hns
      have : t ∈ unknown_of S := mem_unknown_of.mpr ⟨ht, hns⟩
      simp [h] at this
    · next h =>
      rw [List.eq_nil_iff_forall_not_mem] at h
      push_neg at h
      obtain ⟨t, ht⟩ := h
      obtain ⟨htS, hts⟩ := mem_unknown_of.mp ht
      constructor
      · intro he
        exact Except.noConfusion he
      · intro hall
        exact absurd (hall t htS) hts
  · exact ((pySorted_perm _).symm.nodup (List.nodup_dedup _))
  · unfold validate_targets
    split
    · intro e he
      exact Except.noConfusion he
    · intro e he
      simpa using he.symm

/-- C1 witness: on the concrete input `["zz", "arm", "zz", "aa"]` validation
fails and the reported unknown list is exactly `["aa", "zz"]`. -/
theorem validate_targets_correct_witness :
    (validate_targets ["zz", "arm", "zz", "aa"] ≠ Except.ok () ∧
      unknown_of ["zz", "arm", "zz", "aa"] = ["aa", "zz"]) ∧
    (validate_targets ["arm", "x86"] = Except.ok ()) := by
  refine ⟨⟨?_, by decide⟩, ?_⟩
  · intro h
    have h2 := ((validate_targets_correct ["zz", "arm", "zz", "aa"]).1).mp h
    have : ("zz" : String) ∈ SUPPORTED_ARCHES := h2 "zz" (by decide)
    simp [SUPPORTED_ARCHES] at this
  · exact ((validate_targets_correct ["arm", "x86"]).1).mpr (by decide)

/-- C3 counterexample: `suffix_for` does not deduplicate — on the duplicated
input `["arm", "arm"]` it returns `"-arm-arm"`, not the `"-arm"` that the
deduplicated set would give. -/
theorem suffix_for_dup_counterexample :
    suffix_for ["arm", "arm"] = "-arm-arm" ∧
    suffix_for ["arm", "arm"] ≠ suffix_for ["arm"] := by
  constructor
  · rfl
  · decide

/-- C3 (amended): the build suffix is empty iff the input list is empty;
otherwise it is `"-"` followed by the hyphen-joined sorted tokens (duplicates
preserved, not deduplicated); and it is invariant under reordering of the
input. -/
theorem suffix_for_correct (S : List String) :
    (suffix_for S = "" ↔ S = []) ∧
    (∀ S₂, S.Perm S₂ → suffix_for S = suffix_for S₂) ∧
    (S ≠ [] → suffix_for S = "-" ++ String.intercalate "-" (pySorted S)) := by
  refine ⟨?_, ?_, ?_⟩
  · unfold suffix_for
    split
    · next h => simp [h]
    · next h =>
      simp only [h, iff_false]
      intro he
      have hl := congrArg String.length he
      rw [String.length_append, show ("-" : String).length = 1 from rfl,
        show ("" : String).length = 0 from rfl] at hl
      omega
  · intro S₂ hperm
    unfold suffix_for
    rcases eq_or_ne S [] with h | h
    · subst h
      simp [hperm.nil_eq.symm]
    · have h₂ : S₂ ≠ [] := by
        intro he; subst he; exact h hperm.eq_nil
      simp [h, h₂, pySorted_eq_of_perm hperm]
  · intro h
    simp [suffix_for, h]

/-- C3 witness: concrete instances of the amended statement. -/
theorem suffix_for_correct_witness :
    suffix_for ["x86", "arm"] = "-arm-x86" ∧
    suffix_for ["x86", "arm"] = suffix_for ["arm", "x86"] ∧
    suffix_for [] = "" := by
  refine ⟨by decide, ?_, rfl⟩
  exact (suffix_for_correct ["x86", "arm"]).2.1 ["arm", "x86"]
    (List.Perm.swap "arm" "x86" [])

/-! ## Constant extractor (`generate_constants`) -/

/-- Whitespace characters stripped by Python's `str.strip()` (the ASCII
subset; upstream constant files are ASCII). -/
def pySpace (c : Char) : Bool :=
  c = ' ' || c = '\t' || c = '\n' || c = '\r' || c = '\x0b' || c = '\x0c'

/-- Model of Python's `str.strip()` on a code-point list. -/
def pyStrip (l : List Char) : List Char :=
  ((l.dropWhile pySpace).reverse.dropWhile pySpace).reverse

/-- Model of Python's `str.strip()` on a `String`. -/
def pyStripString (s : String) : String := String.mk (pyStrip s.data)

/-- Model of Python's `str.startswith`. -/
def pyStartsWith (pre s : List Char) : Bool := pre.isPrefixOf s

/-- Per-line transform of the loop body of `generate_constants`: strip the
line; drop it when blank or a `#` comment; when it starts with `UC_`, emit
`"uc." + stripped[3:]`; drop anything else. -/
def processLine (line : List Char) : Option (List Char) :=
  let stripped := pyStrip line
  if stripped.isEmpty then none
  else if pyStartsWith ['#'] stripped then none
  else if pyStartsWith ['U', 'C', '_'] stripped then
    some (['u', 'c', '.'] ++ stripped.drop 3)
  else none

/-- Model of Python's line iteration over a file's contents. -/
def pyLines (content : List Char) : List (List Char) := content.splitOn '\n'

/-- Output block `generate_constants` writes for one entry of
`CONSTANT_FILES`: nothing when the file is absent; otherwise a provenance
header, the transformed declaration lines, and a trailing blank line. -/
def fileChunk (dir : String) (getter : String → Option (List Char))
    (rel : String) : List Char :=
  match getter (dir ++ "/" ++ rel) with
  | none => []
  | some content =>
      ("// Source: " ++ rel ++ "\n").data ++
      (((pyLines content).filterMap processLine).map (fun l => l ++ ['\n'])).flatten ++
      ['\n']

/-- Full contents `generate_constants` writes to `src/unicorn-constants.js`. -/
def constantsContent (root : String) (getter : String → Option (List Char)) :
    List Char :=
  "// Auto-generated from Unicorn Python bindings.\n".data ++
  (CONSTANT_FILES.map (fileChunk (UNICORN_DIR root) getter)).flatten

/-- Path of the generated artifact, `SRC_DIR / "unicorn-constants.js"`. -/
def constantsOutputPath (root : String) : String :=
  SRC_DIR root ++ "/unicorn-constants.js"

/-- Filesystem-level model of `generate_constants`: opening the output with
mode `"w"` replaces its contents wholesale; upstream files are only read. -/
def generate_constants_fs (root : String) (fs : String → Option (List Char)) :
    String → Option (List Char) :=
  fun p =>
    if p = constantsOutputPath root then some (constantsContent root fs)
    else fs p

theorem fileChunk_congr {dir : String} {g₁ g₂ : String → Option (List Char)}
    {rel : String} (h : g₁ (dir ++ "/" ++ rel) = g₂ (dir ++ "/" ++ rel)) :
    fileChunk dir g₁ rel = fileChunk dir g₂ rel := by
  unfold fileChunk
  rw [h]

theorem constantsContent_congr {root : String}
    {g₁ g₂ : String → Option (List Char)}
    (h : ∀ rel ∈ CONSTANT_FILES,
      g₁ (UNICORN_DIR root ++ "/" ++ rel) = g₂ (UNICORN_DIR root ++ "/" ++ rel)) :
    constantsContent root g₁ = constantsContent root g₂ := by
  unfold constantsContent
  exact congrArg _ (congrArg _ (List.map_congr_left
    (fun rel hrel => fileChunk_congr (h rel hrel))))

theorem constant_input_ne_output (root : String) {rel : String}
    (h : rel ∈ CONSTANT_FILES) :
    UNICORN_DIR root ++ "/" ++ rel ≠ constantsOutputPath root := by
  have e1 : UNICORN_DIR root ++ "/" ++ rel = root ++ ("/unicorn/" ++ rel) := by
    rw [UNICORN_DIR, String.append_assoc root "/unicorn" "/",
      show ("/unicorn" ++ "/" : String) = "/unicorn/" from rfl,
      String.append_assoc]
  have e2 : constantsOutputPath root = root ++ "/src/unicorn-constants.js" := by
    rw [constantsOutputPath, SRC_DIR, String.append_assoc,
      show ("/src" ++ "/unicorn-constants.js" : String) = "/src/unicorn-constants.js"
        from rfl]
  rw [e1, e2]
  apply append_ne_of_ne
  fin_cases h <;> decide

/-- C6: the constant extractor is idempotent — running it twice over the same
upstream files leaves the very filesystem state of one run, because the
artifact is recomputed from the (distinct) upstream paths and fully
overwritten rather than appended to. -/
theorem generate_constants_idempotent (root : String)
    (fs : String → Option (List Char)) :
    generate_constants_fs root (generate_constants_fs root fs) =
      generate_constants_fs root fs ∧
    generate_constants_fs root fs (constantsOutputPath root) =
      some (constantsContent root fs) := by
  have hstable : constantsContent root (generate_constants_fs root fs) =
      constantsContent root fs := by
    apply constantsContent_congr
    intro rel hrel
    unfold generate_constants_fs
    rw [if_neg (constant_input_ne_output root hrel)]
  have happ : ∀ (g : String → Option (List Char)) (p : String),
      generate_constants_fs root g p =
        if p = constantsOutputPath root then some (constantsContent root g)
        else g p := fun _ _ => rfl
  constructor
  · funext p
    rw [happ, happ]
    by_cases hp : p = constantsOutputPath root
    · rw [if_pos hp, if_pos hp, hstable]
    · rw [if_neg hp, if_neg hp]
  · rw [happ, if_pos rfl]

theorem processLine_eq_processStripped (line : List Char) :
    processLine line =
      (if (pyStrip line).isEmpty then none
       else if pyStartsWith ['#'] (pyStrip line) then none
       else if pyStartsWith ['U', 'C', '_'] (pyStrip line) then
         some (['u', 'c', '.'] ++ (pyStrip line).drop 3)
       else none) := rfl

theorem processLine_isSome (line : List Char) :
    (processLine line).isSome = pyStartsWith ['U', 'C', '_'] (pyStrip line) := by
  rw [processLine_eq_processStripped]
  cases hs : pyStrip line with
  | nil => simp [pyStartsWith, List.isPrefixOf]
  | cons c cs =>
    by_cases h1 : pyStartsWith ['#'] (c :: cs)
    · have hc : c = '#' := by
        have h' : '#' = c := by
          simpa [pyStartsWith, List.isPrefixOf] using h1
        exact h'.symm
      subst hc
      simp [pyStartsWith, List.isPrefixOf]
    · by_cases h2 : pyStartsWith ['U', 'C', '_'] (c :: cs)
      · simp [h1, h2]
      · simp [h1, h2]

/-- C5: in constant extraction a line yields an output line exactly when its
stripped form starts with the recognized `UC_` prefix, the output being the
stripped line with `UC_` replaced by `uc.`; blank lines, `#` comments and
unrecognized lines yield nothing; an absent upstream file contributes no
block at all (no provenance header, no error). -/
theorem generate_constants_transform :
    (∀ line, (processLine line).isSome = pyStartsWith ['U', 'C', '_'] (pyStrip line)) ∧
    (∀ line rest, pyStrip line = 'U' :: 'C' :: '_' :: rest →
      processLine line = some ('u' :: 'c' :: '.' :: rest)) ∧
    processLine "UC_MODE_ARM = 0".data = some "uc.MODE_ARM = 0".data ∧
    processLine "# comment".data = none ∧
    processLine "".data = none ∧
    processLine "   ".data = none ∧
    processLine "x = 1".data = none ∧
    (∀ dir getter rel, getter (dir ++ "/" ++ rel) = none →
      fileChunk dir getter rel = []) ∧
    (∀ dir getter rel content, getter (dir ++ "/" ++ rel) = some content →
      fileChunk dir getter rel =
        ("// Source: " ++ rel ++ "\n").data ++
        (((pyLines content).filterMap processLine).map (fun l => l ++ ['\n'])).flatten ++
        ['\n']) := by
  refine ⟨processLine_isSome, ?_, by decide, by decide, by decide, by decide,
    by decide, ?_, ?_⟩
  · intro line rest h
    rw [processLine_eq_processStripped, h]
    simp [pyStartsWith, List.isPrefixOf]
  · intro dir getter rel h
    simp only [fileChunk, h]
  · intro dir getter rel content h
    simp only [fileChunk, h]

/-- C5 witness: a concrete indented declaration line is transformed, and a
concrete absent file contributes nothing. -/
theorem generate_constants_transform_witness :
    processLine "  UC_X = 5".data = some ('u' :: 'c' :: '.' :: "X = 5".data) ∧
    fileChunk "/r/unicorn" (fun _ => none) "bindings/python/unicorn/x86_const.py" = [] := by
  constructor
  · exact generate_constants_transform.2.1 "  UC_X = 5".data "X = 5".data (by decide)
  · exact generate_constants_transform.2.2.2.2.2.2.2.1 "/r/unicorn" (fun _ => none)
      "bindings/python/unicorn/x86_const.py" rfl

/-- C6 witness: a concrete one-file filesystem on which the two-run state
equals the one-run state. -/
theorem generate_constants_idempotent_witness :
    generate_constants_fs "/r" (generate_constants_fs "/r" (fun _ => none)) =
      generate_constants_fs "/r" (fun _ => none) :=
  (generate_constants_idempotent "/r" (fun _ => none)).1

/-! ## Effect model: events, the world oracle, and subprocess runs -/

/-- Tri-state of one patch relative to the vendored tree, as the spec's patch
descriptor describes it: `git apply --check` succeeds exactly on
`notApplied`, `git apply --reverse --check` succeeds exactly on `applied`,
and a real `git apply` moves `notApplied` to `applied`. -/
inductive PatchState where
  | notApplied
  | applied
  | conflicting
  deriving DecidableEq, Repr

/-- State-changing effects of `build.py`. Dry-run checks (`git apply
--check`, `shutil.which`, `Path.exists`) are read-only queries answered by
the `World` oracle and leave no event. -/
inductive Event where
  | printOut (msg : String)
  | printErr (msg : String)
  | runCmd (cmd : List String) (cwd : String) (env : Option (List (String × String)))
  | rmtree (path : String)
  | mkdir (path : String)
  | writeFile (path : String) (content : List Char)
  | unlink (path : String)
  deriving DecidableEq, Repr

/-- The external environment `build.py` runs against: tool lookup, path
existence, subprocess exit codes, the per-patch tri-state with the forward
check's diagnostic, the process environment, the processor count, and the
contents of the upstream constant files. -/
structure World where
  which : String → Option String
  pathExists : String → Bool
  unicornNonempty : Bool
  runExit : List String → String → Nat
  patchState : String → PatchState
  patchFwdErr : String → String
  environ : List (String × String)
  cpuCount : Option Nat
  fileLines : String → Option (List Char)

/-- Rendering Python gives `str(subprocess.CalledProcessError)`. -/
def pyReprStrList (l : List String) : String :=
  "[" ++ String.intercalate ", " (l.map (fun s => "'" ++ s ++ "'")) ++ "]"

/-- Messages `main` prints for the exception kinds it catches. -/
def errStr : Err → String
  | Err.valueError m => m
  | Err.runtimeError m => m
  | Err.calledProcessError cmd code =>
      "Command '" ++ pyReprStrList cmd ++ "' returned non-zero exit status " ++
        toString code ++ "."

/-- Embedding of the helper `run` of `build.py`: echo the command, run it,
raise `CalledProcessError` on a non-zero exit. -/
def run_call (w : World) (cmd : List String) (cwd : String)
    (env : Option (List (String × String))) : List Event × Except Err Unit :=
  ([Event.printOut ("+ " ++ String.intercalate " " cmd),
    Event.runCmd cmd cwd env],
   if w.runExit cmd cwd = 0 then Except.ok ()
   else Except.error (Err.calledProcessError cmd (w.runExit cmd cwd)))

/-- Embedding of `ensure_submodule` of `build.py`. -/
def ensure_submodule (root : String) (w : World) : List Event × Except Err Unit :=
  if !w.pathExists (UNICORN_DIR root) || !w.unicornNonempty then
    run_call w ["git", "submodule", "update", "--init", "--recursive"] root none
  else ([], Except.ok ())

/-- Record update a real `git apply` of one patch performs on the world. -/
def setApplied (w : World) (p : String) : World :=
  { w with patchState := fun q => if q = p then PatchState.applied else w.patchState q }

/-- Loop body of `apply_emscripten_patches` folded over a patch list: check
the file exists, dry-run forward check (clean on `notApplied`: apply for
real), else dry-run reverse check (clean on `applied`: skip), else fail with
the patch identity and the stripped forward diagnostic. -/
def applyPatchesGo (root : String) (w : World) :
    List String → World × List Event × Except Err Unit
  | [] => (w, [], Except.ok ())
  | p :: rest =>
    if w.pathExists p = false then
      (w, [], Except.error (Err.runtimeError ("Patch file not found: " ++ p)))
    else
      match w.patchState p with
      | PatchState.notApplied =>
          let evs := [Event.printOut ("+ " ++ String.intercalate " " ["git", "apply", p]),
            Event.runCmd ["git", "apply", p] (UNICORN_DIR root) none]
          let res := applyPatchesGo root (setApplied w p) rest
          (res.1, evs ++ res.2.1, res.2.2)
      | PatchState.applied => applyPatchesGo root w rest
      | PatchState.conflicting =>
          (w, [], Except.error (Err.runtimeError
            ("Failed to apply patch " ++ p ++ ": " ++
              pyStripString (w.patchFwdErr p))))

/-- Embedding of `apply_emscripten_patches` of `build.py`. -/
def apply_emscripten_patches (root : String) (w : World) :
    World × List Event × Except Err Unit :=
  applyPatchesGo root w (UNICORN_PATCHES root)

/-- Embedding of `generate_constants` of `build.py` at the event level: a
single whole-file write of the generated artifact. -/
def generate_constants (root : String) (w : World) : List Event :=
  [Event.writeFile (constantsOutputPath root) (constantsContent root w.fileLines)]

/-- Environment passed to the toolchain subprocesses of
`configure_and_build_unicorn`: a copy of `os.environ` with `NODE` popped and
`EM_NODE_JS` defaulted to the located `node` binary. -/
def childEnv (environ : List (String × String)) (node : Option String) :
    List (String × String) :=
  if ((environ.filter (fun kv => kv.1 != "NODE")).lookup "EM_NODE_JS").isSome then
    environ.filter (fun kv => kv.1 != "NODE")
  else
    match node with
    | some nb => environ.filter (fun kv => kv.1 != "NODE") ++ [("EM_NODE_JS", nb)]
    | none => environ.filter (fun kv => kv.1 != "NODE")

/-- The `-j` argument: `os.cpu_count() or 4`. -/
def cpuJobs (c : Option Nat) : Nat :=
  match c with
  | none => 4
  | some n => if n = 0 then 4 else n

/-- The fixed part of the configuration command of
`configure_and_build_unicorn`, plus the architecture constraint for a
non-empty selection. -/
def cmakeCmd (emcmake : String) (targets : List String) : List String :=
  [emcmake, "cmake", "..", "-DCMAKE_BUILD_TYPE=Release",
   "-DBUILD_SHARED_LIBS=OFF", "-DUNICORN_BUILD_TESTS=OFF",
   "-DUNICORN_INSTALL=OFF", "-DUNICORN_LEGACY_STATIC_ARCHIVE=ON"] ++
  (if targets = [] then []
   else ["-DUNICORN_ARCH=" ++ String.intercalate ";" (pySorted targets)])

/-- The per-configuration build directory `UNICORN_DIR / f"build-js{suffix}"`. -/
def buildDirFor (root : String) (targets : List String) : String :=
  UNICORN_DIR root ++ "/build-js" ++ suffix_for targets

/-- Embedding of `configure_and_build_unicorn` of `build.py`. Note the
order taken from the source: the build directory is deleted and recreated
before `emcmake` is looked up. -/
def configure_and_build_unicorn (root : String) (w : World)
    (targets : List String) : World × List Event × Except Err String :=
  let build_dir := buildDirFor root targets
  let pre := (if w.pathExists build_dir then [Event.rmtree build_dir] else []) ++
    [Event.mkdir build_dir]
  match w.which "emcmake" with
  | none => (w, pre, Except.error (Err.runtimeError
      "emcmake not found. Please install and activate Emscripten SDK first."))
  | some emcmake =>
      let cmake_cmd := cmakeCmd emcmake targets
      let env := childEnv w.environ (w.which "node")
      match run_call w cmake_cmd build_dir (some env) with
      | (evs1, Except.error e) => (w, pre ++ evs1, Except.error e)
      | (evs1, Except.ok ()) =>
          let build_cmd := ["cmake", "--build", ".", "--config", "Release",
            "-j", toString (cpuJobs w.cpuCount)]
          match run_call w build_cmd build_dir (some env) with
          | (evs2, Except.error e) => (w, pre ++ evs1 ++ evs2, Except.error e)
          | (evs2, Except.ok ()) =>
              let static_lib := build_dir ++ "/libunicorn.a"
              if w.pathExists static_lib then
                (w, pre ++ evs1 ++ evs2, Except.ok static_lib)
              else
                (w, pre ++ evs1 ++ evs2, Except.error (Err.runtimeError
                  ("Expected library not found: " ++ static_lib)))

/-- Serialization `json.dumps` produces for the export catalogs (plain ASCII
names, so no escaping arises). -/
def jsonDumps (l : List String) : String :=
  "[" ++ String.intercalate ", " (l.map (fun s => "\"" ++ s ++ "\"")) ++ "]"

/-- The link command of `link_to_javascript`. -/
def emccCmd (emcc static_lib output_js : String) : List String :=
  [emcc, "-O3", static_lib, "-sALLOW_MEMORY_GROWTH=1", "-sALLOW_TABLE_GROWTH=1",
   "-sWASM=1", "-sSINGLE_FILE=1", "-sWASM_ASYNC_COMPILATION=0",
   "-sWASM_BIGINT=0", "-sENVIRONMENT=web", "-sEXPORT_NAME=MUnicorn",
   "-sEXPORTED_FUNCTIONS=" ++ jsonDumps EXPORTED_FUNCTIONS,
   "-sEXPORTED_RUNTIME_METHODS=" ++ jsonDumps EXPORTED_RUNTIME_METHODS,
   "-o", output_js]

/-- Embedding of `link_to_javascript` of `build.py`. -/
def link_to_javascript (root : String) (w : World) (static_lib : String)
    (targets : List String) : World × List Event × Except Err Unit :=
  match w.which "emcc" with
  | none => (w, [], Except.error (Err.runtimeError
      "emcc not found. Please install and activate Emscripten SDK first."))
  | some emcc =>
      let output_js := SRC_DIR root ++ "/libunicorn" ++ suffix_for targets ++ ".out.js"
      let output_wasm := SRC_DIR root ++ "/libunicorn" ++ suffix_for targets ++ ".out.wasm"
      match run_call w (emccCmd emcc static_lib output_js) root none with
      | (evs, Except.error e) => (w, evs, Except.error e)
      | (evs, Except.ok ()) =>
          if w.pathExists output_wasm then
            (w, evs ++ [Event.unlink output_wasm], Except.ok ())
          else (w, evs, Except.ok ())

/-- Embedding of `build` of `build.py`: validate, then the maintenance
stages, then native build and link. -/
def buildAction (root : String) (w : World) (targets : List String) :
    World × List Event × Except Err Unit :=
  match validate_targets targets with
  | Except.error e => (w, [], Except.error e)
  | Except.ok () =>
    match ensure_submodule root w with
    | (evs0, Except.error e) => (w, evs0, Except.error e)
    | (evs0, Except.ok ()) =>
      match apply_emscripten_patches root w with
      | (w1, evs1, Except.error e) => (w1, evs0 ++ evs1, Except.error e)
      | (w1, evs1, Except.ok ()) =>
        let evs2 := generate_constants root w1
        match configure_and_build_unicorn root w1 targets with
        | (w2, evs3, Except.error e) =>
            (w2, evs0 ++ evs1 ++ evs2 ++ evs3, Except.error e)
        | (w2, evs3, Except.ok static_lib) =>
            match link_to_javascript root w2 static_lib targets with
            | (w3, evs4, r) => (w3, evs0 ++ evs1 ++ evs2 ++ evs3 ++ evs4, r)

/-- Stages the `patch` action runs: dependency resolution, patching,
constant extraction. -/
def patchAction (root : String) (w : World) :
    World × List Event × Except Err Unit :=
  match ensure_submodule root w with
  | (evs0, Except.error e) => (w, evs0, Except.error e)
  | (evs0, Except.ok ()) =>
    match apply_emscripten_patches root w with
    | (w1, evs1, Except.error e) => (w1, evs0 ++ evs1, Except.error e)
    | (w1, evs1, Except.ok ()) =>
        (w1, evs0 ++ evs1 ++ generate_constants root w1, Except.ok ())

/-- Lines `usage` prints; `argv0` is `sys.argv[0]`, of which Python takes the
basename. -/
def usageEvents (argv0 : String) : List Event :=
  [Event.printOut ("Usage: " ++
      String.mk (((argv0.data.reverse.takeWhile (fun c => c != '/')).reverse)) ++
      " <action> [<targets>...]"),
   Event.printOut "Actions:",
   Event.printOut "  patch  Apply emscripten patches and regenerate constants",
   Event.printOut "  build  Build unicorn.js with cmake/emscripten"]

/-- Embedding of `main` of `build.py`; `args` is `sys.argv[1:]` and the
returned number the process exit code. -/
def mainRun (root : String) (w : World) (argv0 : String) (args : List String) :
    World × List Event × Nat :=
  match args with
  | [] => (w, usageEvents argv0, 1)
  | action :: rest =>
    if action = "patch" then
      match patchAction root w with
      | (w1, evs, Except.ok ()) =>
          (w1, evs ++ [Event.printOut "Patches and constants regenerated."], 0)
      | (w1, evs, Except.error e) =>
          (w1, evs ++ [Event.printErr ("Error: " ++ errStr e)], 1)
    else if action = "build" then
      match buildAction root w (pySorted rest) with
      | (w1, evs, Except.ok ()) => (w1, evs, 0)
      | (w1, evs, Except.error e) =>
          (w1, evs ++ [Event.printErr ("Error: " ++ errStr e)], 1)
    else (w, usageEvents argv0, 1)

/-! ## Native build and link stage theorems -/

/-- Concrete world: no tool is on the path, every path exists, every patch is
already applied, no upstream constant file is present. -/
def W0 : World :=
  { which := fun _ => none
    pathExists := fun _ => true
    unicornNonempty := true
    runExit := fun _ _ => 0
    patchState := fun _ => PatchState.applied
    patchFwdErr := fun _ => ""
    environ := []
    cpuCount := some 4
    fileLines := fun _ => none }

/-- Concrete world: only `emcmake` is on the path, no path exists. -/
def WA : World :=
  { W0 with
    which := fun t => if t = "emcmake" then some "/usr/bin/emcmake" else none
    pathExists := fun _ => false }

theorem configure_fst (root : String) (w : World) (targets : List String) :
    (configure_and_build_unicorn root w targets).1 = w := by
  unfold configure_and_build_unicorn
  cases hw : w.which "emcmake" with
  | none => rfl
  | some emcmake =>
      simp only [run_call]
      by_cases h1 : w.runExit (cmakeCmd emcmake targets) (buildDirFor root targets) = 0 <;>
        simp only [h1, if_true, if_false, reduceCtorEq, reduceIte]
      · by_cases h2 : w.runExit ["cmake", "--build", ".", "--config", "Release",
            "-j", toString (cpuJobs w.cpuCount)] (buildDirFor root targets) = 0 <;>
          simp only [h2, if_true, if_false, reduceCtorEq, reduceIte]
        · by_cases h3 : w.pathExists (buildDirFor root targets ++ "/libunicorn.a") <;>
            simp [h3]

/-- C2 counterexample: with `emcmake` absent from the environment and the
build directory existing, the configure stage still deletes and recreates
the build directory — both mutation events appear in the trace — before it
aborts with the missing-tool error. -/
theorem missing_tool_counterexample :
    (configure_and_build_unicorn "/r" W0 []).2.2 =
      Except.error (Err.runtimeError
        "emcmake not found. Please install and activate Emscripten SDK first.") ∧
    (configure_and_build_unicorn "/r" W0 []).2.1 =
      [Event.rmtree "/r/unicorn/build-js", Event.mkdir "/r/unicorn/build-js"] :=
  ⟨rfl, rfl⟩

/-- C2 (amended): a missing `emcc` aborts the link stage before any effect,
naming `emcc`; a missing `emcmake` aborts the configure stage naming
`emcmake`, but only after the build directory has been deleted (when it
existed) and recreated — those mutations are exactly the trace that
precedes the abort. -/
theorem missing_tool_aborts (root : String) (w : World) (targets : List String)
    (lib : String) :
    (w.which "emcmake" = none →
      (configure_and_build_unicorn root w targets).2.2 =
        Except.error (Err.runtimeError
          "emcmake not found. Please install and activate Emscripten SDK first.") ∧
      (configure_and_build_unicorn root w targets).2.1 =
        (if w.pathExists (buildDirFor root targets) then
          [Event.rmtree (buildDirFor root targets)] else []) ++
        [Event.mkdir (buildDirFor root targets)]) ∧
    (w.which "emcc" = none →
      link_to_javascript root w lib targets =
        (w, [], Except.error (Err.runtimeError
          "emcc not found. Please install and activate Emscripten SDK first."))) := by
  constructor
  · intro h
    unfold configure_and_build_unicorn
    rw [h]
    exact ⟨rfl, rfl⟩
  · intro h
    unfold link_to_javascript
    rw [h]

/-- C2 witness: the amended statement at the concrete world `W0`. -/
theorem missing_tool_aborts_witness :
    (configure_and_build_unicorn "/r" W0 ["arm"]).2.2 =
      Except.error (Err.runtimeError
        "emcmake not found. Please install and activate Emscripten SDK first.") ∧
    link_to_javascript "/r" W0 "lib.a" ["arm"] =
      (W0, [], Except.error (Err.runtimeError
        "emcc not found. Please install and activate Emscripten SDK first.")) := by
  constructor
  · exact ((missing_tool_aborts "/r" W0 ["arm"] "lib.a").1 rfl).1
  · exact (missing_tool_aborts "/r" W0 ["arm"] "lib.a").2 rfl

/-- C7: when the configuration and compile commands both exit with status 0
but the static archive is absent from its deterministic path inside the
build directory, the stage fails with the artifact-missing error — and the
compile command really was invoked (it is in the trace). -/
theorem artifact_missing_fatal (root : String) (w : World)
    (targets : List String) (emk : String)
    (hk : w.which "emcmake" = some emk)
    (hrun : ∀ cmd cwd, w.runExit cmd cwd = 0)
    (hlib : w.pathExists (buildDirFor root targets ++ "/libunicorn.a") = false) :
    (configure_and_build_unicorn root w targets).2.2 =
      Except.error (Err.runtimeError
        ("Expected library not found: " ++
          (buildDirFor root targets ++ "/libunicorn.a"))) ∧
    Event.runCmd ["cmake", "--build", ".", "--config", "Release", "-j",
        toString (cpuJobs w.cpuCount)] (buildDirFor root targets)
        (some (childEnv w.environ (w.which "node"))) ∈
      (configure_and_build_unicorn root w targets).2.1 := by
  unfold configure_and_build_unicorn
  rw [hk]
  simp only [run_call, hrun, if_true, reduceIte, hlib]
  constructor
  · rfl
  · simp

/-- C7 witness: the artifact-missing error at the concrete world `WA`. -/
theorem artifact_missing_fatal_witness :
    (configure_and_build_unicorn "/r" WA []).2.2 =
      Except.error (Err.runtimeError
        ("Expected library not found: " ++ "/r/unicorn/build-js/libunicorn.a")) :=
  (artifact_missing_fatal "/r" WA [] "/usr/bin/emcmake" rfl (fun _ _ => rfl) rfl).1

/-- Lookup misses every key removed by a key-filter. -/
theorem lookup_filter_ne (l : List (String × String)) (k : String) :
    (l.filter (fun kv => kv.1 != k)).lookup k = none := by
  induction l with
  | nil => rfl
  | cons kv rest ih =>
    rcases kv with ⟨a, b⟩
    by_cases ha : a = k
    · have hf : List.filter (fun kv => kv.1 != k) ((a, b) :: rest) =
          List.filter (fun kv => kv.1 != k) rest := by
        simp [List.filter_cons, ha]
      rw [hf]
      exact ih
    · have hf : List.filter (fun kv => kv.1 != k) ((a, b) :: rest) =
          (a, b) :: List.filter (fun kv => kv.1 != k) rest := by
        simp [List.filter_cons, ha]
      rw [hf]
      have hne : (k == a) = false := by simp [Ne.symm ha]
      simp only [List.lookup, hne]
      exact ih

theorem lookup_append_of_none {l₁ l₂ : List (String × String)} {k : String}
    (h : l₁.lookup k = none) : (l₁ ++ l₂).lookup k = l₂.lookup k := by
  induction l₁ with
  | nil => rfl
  | cons kv rest ih =>
    rcases kv with ⟨a, b⟩
    cases hbeq : (k == a) with
    | true =>
        simp only [List.lookup, hbeq] at h
        exact Option.noConfusion h
    | false =>
        simp only [List.cons_append, List.lookup, hbeq] at h ⊢
        exact ih h

/-- C9: the environment adjustment of the native build stage is scoped to
its subprocesses: the caller's environment mapping is unchanged by the
stage; every subprocess of the stage is invoked with the adjusted copy; the
copy has no `NODE` binding; and when the ambient environment lacks
`EM_NODE_JS` and `node` is found, the copy pins `EM_NODE_JS` to it. -/
theorem env_adjustment_scoped (root : String) (w : World)
    (targets : List String) :
    (configure_and_build_unicorn root w targets).1.environ = w.environ ∧
    (childEnv w.environ (w.which "node")).lookup "NODE" = none ∧
    (∀ nb, (w.environ.filter (fun kv => kv.1 != "NODE")).lookup "EM_NODE_JS" = none →
      w.which "node" = some nb →
      (childEnv w.environ (w.which "node")).lookup "EM_NODE_JS" = some nb) ∧
    (∀ cmd cwd env, Event.runCmd cmd cwd env ∈
        (configure_and_build_unicorn root w targets).2.1 →
      env = some (childEnv w.environ (w.which "node"))) := by
  refine ⟨by rw [configure_fst], ?_, ?_, ?_⟩
  · cases hn : w.which "node" with
    | none =>
        unfold childEnv
        by_cases hl : ((w.environ.filter (fun kv => kv.1 != "NODE")).lookup
            "EM_NODE_JS").isSome = true
        · rw [if_pos hl]
          exact lookup_filter_ne _ _
        · rw [if_neg hl]
          exact lookup_filter_ne _ _
    | some nb =>
        unfold childEnv
        by_cases hl : ((w.environ.filter (fun kv => kv.1 != "NODE")).lookup
            "EM_NODE_JS").isSome = true
        · rw [if_pos hl]
          exact lookup_filter_ne _ _
        · rw [if_neg hl]
          show List.lookup "NODE"
            (w.environ.filter (fun kv => kv.1 != "NODE") ++ [("EM_NODE_JS", nb)]) = none
          rw [lookup_append_of_none (lookup_filter_ne _ _)]
          rfl
  · intro nb hnone hnode
    have he : childEnv w.environ (w.which "node") =
        w.environ.filter (fun kv => kv.1 != "NODE") ++ [("EM_NODE_JS", nb)] := by
      unfold childEnv
      rw [hnode, hnone]
      rfl
    rw [he, lookup_append_of_none hnone]
    rfl
  · intro cmd cwd env hmem
    revert hmem
    unfold configure_and_build_unicorn
    cases hw : w.which "emcmake" with
    | none =>
        intro hmem
        by_cases hbd : w.pathExists (buildDirFor root targets) <;>
          simp [hbd] at hmem
    | some emcmake =>
        simp only [run_call]
        by_cases h1 : w.runExit (cmakeCmd emcmake targets) (buildDirFor root targets) = 0 <;>
          simp only [h1, if_true, if_false, reduceCtorEq, reduceIte]
        · by_cases h2 : w.runExit ["cmake", "--build", ".", "--config", "Release",
              "-j", toString (cpuJobs w.cpuCount)] (buildDirFor root targets) = 0 <;>
            simp only [h2, if_true, if_false, reduceCtorEq, reduceIte]
          · by_cases h3 : w.pathExists (buildDirFor root targets ++ "/libunicorn.a") <;>
              by_cases hbd : w.pathExists (buildDirFor root targets) <;>
              · intro hmem
                simp [h3, hbd] at hmem
                rcases hmem with h | h | h <;> simp_all
          · by_cases hbd : w.pathExists (buildDirFor root targets) <;>
              · intro hmem
                simp [hbd] at hmem
                rcases hmem with h | h | h <;> simp_all
        · by_cases hbd : w.pathExists (buildDirFor root targets) <;>
            · intro hmem
              simp [hbd] at hmem
              rcases hmem with h | h <;> simp_all

/-- Concrete world: an ambient `NODE` variable is set and only `node` is on
the path. -/
def WN : World :=
  { W0 with
    environ := [("NODE", "/old/node")]
    which := fun t => if t = "node" then some "/usr/bin/node" else none }

/-- C9 witness: with an ambient `NODE` set and `node` on the path, the
caller's environment survives the stage and the subprocess copy is pinned. -/
theorem env_adjustment_scoped_witness :
    (configure_and_build_unicorn "/r" WN []).1.environ =
      [("NODE", "/old/node")] ∧
    (childEnv WN.environ (WN.which "node")).lookup "EM_NODE_JS" =
      some "/usr/bin/node" := by
  constructor
  · exact (env_adjustment_scoped "/r" WN []).1
  · exact (env_adjustment_scoped "/r" WN []).2.2.1 "/usr/bin/node" rfl rfl

/-! ## Patch applicator theorems -/

theorem setApplied_patchState (w : World) (p q : String) :
    (setApplied w p).patchState q =
      if q = p then PatchState.applied else w.patchState q := rfl

theorem applyPatchesGo_pathExists (root : String) (ps : List String) :
    ∀ w : World, ((applyPatchesGo root w ps).1).pathExists = w.pathExists := by
  induction ps with
  | nil => intro w; rfl
  | cons p rest ih =>
    intro w
    by_cases hp : w.pathExists p = false
    · simp [applyPatchesGo, hp]
    · cases hs : w.patchState p with
      | notApplied => simp [applyPatchesGo, hp, hs, ih, setApplied]
      | applied => simp [applyPatchesGo, hp, hs, ih w]
      | conflicting => simp [applyPatchesGo, hp, hs]

theorem applyPatchesGo_applied_mono (root : String) (ps : List String) :
    ∀ (w : World) (q : String), w.patchState q = PatchState.applied →
      ((applyPatchesGo root w ps).1).patchState q = PatchState.applied := by
  induction ps with
  | nil => intro w q hq; exact hq
  | cons p rest ih =>
    intro w q hq
    by_cases hp : w.pathExists p = false
    · simpa [applyPatchesGo, hp] using hq
    · cases hs : w.patchState p with
      | notApplied =>
          simp only [applyPatchesGo, hp, if_false, Bool.false_eq_true, reduceIte, hs]
          exact ih (setApplied w p) q
            (by rw [setApplied_patchState]; split <;> simp [hq])
      | applied =>
          simp only [applyPatchesGo, hp, if_false, Bool.false_eq_true, reduceIte, hs]
          exact ih w q hq
      | conflicting =>
          simpa [applyPatchesGo, hp, hs] using hq

theorem applyPatchesGo_all_applied (root : String) (ps : List String)
    (w : World)
    (h : ∀ p ∈ ps, w.pathExists p = true ∧ w.patchState p = PatchState.applied) :
    applyPatchesGo root w ps = (w, [], Except.ok ()) := by
  induction ps with
  | nil => rfl
  | cons p rest ih =>
    obtain ⟨hp, hs⟩ := h p (List.mem_cons_self p rest)
    simp only [applyPatchesGo, hp, hs]
    exact ih (fun q hq => h q (List.mem_cons_of_mem p hq))

/-- The pair of events a real `git apply` of one patch leaves. -/
def gitApplyEvents (root : String) (p : String) : List Event :=
  [Event.printOut ("+ " ++ String.intercalate " " ["git", "apply", p]),
   Event.runCmd ["git", "apply", p] (UNICORN_DIR root) none]

theorem applyPatchesGo_success (root : String) (ps : List String) :
    ∀ w : World, ps.Nodup →
      (∀ p ∈ ps, w.pathExists p = true ∧ w.patchState p ≠ PatchState.conflicting) →
      (applyPatchesGo root w ps).2.2 = Except.ok () ∧
      (applyPatchesGo root w ps).2.1 =
        (ps.filter (fun p => w.patchState p == PatchState.notApplied)).flatMap
          (gitApplyEvents root) ∧
      (∀ q ∈ ps, ((applyPatchesGo root w ps).1).patchState q = PatchState.applied) := by
  induction ps with
  | nil => intro w _ _; exact ⟨rfl, rfl, fun q hq => absurd hq (List.not_mem_nil q)⟩
  | cons p rest ih =>
    intro w hnd h
    obtain ⟨hpnot, hndr⟩ := List.nodup_cons.mp hnd
    obtain ⟨hp, hs⟩ := h p (List.mem_cons_self p rest)
    cases hst : w.patchState p with
    | conflicting => exact absurd hst hs
    | applied =>
        have ihw := ih w hndr (fun q hq => h q (List.mem_cons_of_mem p hq))
        refine ⟨?_, ?_, ?_⟩
        · simpa [applyPatchesGo, hp, hst] using ihw.1
        · rw [show (applyPatchesGo root w (p :: rest)).2.1 =
              (applyPatchesGo root w rest).2.1 by simp [applyPatchesGo, hp, hst]]
          rw [List.filter_cons, show (w.patchState p == PatchState.notApplied) = false
            by simp [hst]]
          simpa using ihw.2.1
        · intro q hq
          rw [show (applyPatchesGo root w (p :: rest)).1 =
              (applyPatchesGo root w rest).1 by simp [applyPatchesGo, hp, hst]]
          rcases List.mem_cons.mp hq with rfl | hq
          · exact applyPatchesGo_applied_mono root rest w q hst
          · exact ihw.2.2 q hq
    | notApplied =>
        have hrest : ∀ q ∈ rest, (setApplied w p).pathExists q = true ∧
            (setApplied w p).patchState q ≠ PatchState.conflicting := by
          intro q hq
          have hqp : q ≠ p := fun he => hpnot (he ▸ hq)
          rw [setApplied_patchState, if_neg hqp]
          exact h q (List.mem_cons_of_mem p hq)
        have ihw := ih (setApplied w p) hndr hrest
        refine ⟨?_, ?_, ?_⟩
        · simpa [applyPatchesGo, hp, hst] using ihw.1
        · rw [show (applyPatchesGo root w (p :: rest)).2.1 =
              gitApplyEvents root p ++ (applyPatchesGo root (setApplied w p) rest).2.1
              by simp [applyPatchesGo, hp, hst, gitApplyEvents]]
          rw [List.filter_cons, show (w.patchState p == PatchState.notApplied) = true
            by simp [hst]]
          rw [if_pos rfl, List.flatMap_cons]
          have hfeq : rest.filter
              (fun q => (setApplied w p).patchState q == PatchState.notApplied) =
              rest.filter (fun q => w.patchState q == PatchState.notApplied) := by
            apply List.filter_congr
            intro q hq
            have hqp : q ≠ p := fun he => hpnot (he ▸ hq)
            rw [setApplied_patchState, if_neg hqp]
          rw [ihw.2.1, hfeq]
        · intro q hq
          rw [show (applyPatchesGo root w (p :: rest)).1 =
              (applyPatchesGo root (setApplied w p) rest).1
              by simp [applyPatchesGo, hp, hst]]
          rcases List.mem_cons.mp hq with rfl | hq
          · exact applyPatchesGo_applied_mono root rest (setApplied w q) q
              (by rw [setApplied_patchState, if_pos rfl])
          · exact ihw.2.2 q hq

theorem applyPatchesGo_conflict (root : String) (as : List String) :
    ∀ (w : World) (p : String) (bs : List String), (as ++ p :: bs).Nodup →
      (∀ q ∈ as, w.pathExists q = true ∧ w.patchState q ≠ PatchState.conflicting) →
      w.pathExists p = true → w.patchState p = PatchState.conflicting →
      (applyPatchesGo root w (as ++ p :: bs)).2.2 =
        Except.error (Err.runtimeError ("Failed to apply patch " ++ p ++ ": " ++
          pyStripString (w.patchFwdErr p))) ∧
      (applyPatchesGo root w (as ++ p :: bs)).2.1 =
        (as.filter (fun q => w.patchState q == PatchState.notApplied)).flatMap
          (gitApplyEvents root) := by
  induction as with
  | nil =>
      intro w p bs _ _ hp hc
      constructor
      · simp [applyPatchesGo, hp, hc]
      · simp [applyPatchesGo, hp, hc]
  | cons a rest ih =>
      intro w p bs hnd has hp hc
      obtain ⟨ha, hane⟩ := has a (List.mem_cons_self a rest)
      have hnd₀ : (a :: (rest ++ p :: bs)).Nodup := by simpa using hnd
      have hnd' : (rest ++ p :: bs).Nodup := (List.nodup_cons.mp hnd₀).2
      have hanotin : a ∉ rest ++ p :: bs := (List.nodup_cons.mp hnd₀).1
      have hap : p ≠ a := by
        intro he
        exact hanotin (by
          rw [he]
          exact List.mem_append_right _ (List.mem_cons_self _ _))
      cases hst : w.patchState a with
      | conflicting => exact absurd hst hane
      | applied =>
          have ihw := ih w p bs hnd'
            (fun q hq => has q (List.mem_cons_of_mem a hq)) hp hc
          constructor
          · rw [show (applyPatchesGo root w ((a :: rest) ++ p :: bs)).2.2 =
                (applyPatchesGo root w (rest ++ p :: bs)).2.2
                by simp [applyPatchesGo, ha, hst]]
            exact ihw.1
          · rw [show (applyPatchesGo root w ((a :: rest) ++ p :: bs)).2.1 =
                (applyPatchesGo root w (rest ++ p :: bs)).2.1
                by simp [applyPatchesGo, ha, hst]]
            rw [ihw.2, List.filter_cons,
              show (w.patchState a == PatchState.notApplied) = false by simp [hst]]
            simp
      | notApplied =>
          have hrest : ∀ q ∈ rest, (setApplied w a).pathExists q = true ∧
              (setApplied w a).patchState q ≠ PatchState.conflicting := by
            intro q hq
            have hqa : q ≠ a := by
              intro he
              exact hanotin (he ▸ List.mem_append_left _ hq)
            rw [setApplied_patchState, if_neg hqa]
            exact has q (List.mem_cons_of_mem a hq)
          have hc' : (setApplied w a).patchState p = PatchState.conflicting := by
            rw [setApplied_patchState, if_neg hap]
            exact hc
          have ihw := ih (setApplied w a) p bs hnd' hrest hp hc'
          constructor
          · rw [show (applyPatchesGo root w ((a :: rest) ++ p :: bs)).2.2 =
                (applyPatchesGo root (setApplied w a) (rest ++ p :: bs)).2.2
                by simp [applyPatchesGo, ha, hst]]
            exact ihw.1
          · rw [show (applyPatchesGo root w ((a :: rest) ++ p :: bs)).2.1 =
                gitApplyEvents root a ++
                  (applyPatchesGo root (setApplied w a) (rest ++ p :: bs)).2.1
                by simp [applyPatchesGo, ha, hst, gitApplyEvents]]
            rw [ihw.2, List.filter_cons,
              show (w.patchState a == PatchState.notApplied) = true by simp [hst]]
            rw [if_pos rfl, List.flatMap_cons]
            have hfeq : rest.filter
                (fun q => (setApplied w a).patchState q == PatchState.notApplied) =
                rest.filter (fun q => w.patchState q == PatchState.notApplied) := by
              apply List.filter_congr
              intro q hq
              have hqa : q ≠ a := by
                intro he
                exact hanotin (he ▸ List.mem_append_left _ hq)
              rw [setApplied_patchState, if_neg hqa]
            rw [hfeq]

theorem unicorn_patches_nodup (root : String) : (UNICORN_PATCHES root).Nodup := by
  have e : ∀ n : String, PATCH_DIR root ++ "/" ++ n = root ++ ("/patch/" ++ n) := by
    intro n
    rw [PATCH_DIR, String.append_assoc root "/patch" "/",
      show ("/patch" ++ "/" : String) = "/patch/" from rfl, String.append_assoc]
  unfold UNICORN_PATCHES
  rw [e, e, e, e]
  refine List.nodup_cons.mpr ⟨?_, List.nodup_cons.mpr ⟨?_,
    List.nodup_cons.mpr ⟨?_, List.nodup_singleton _⟩⟩⟩
  · simp only [List.mem_cons, List.not_mem_nil, or_false]
    push_neg
    exact ⟨append_ne_of_ne root (by decide), append_ne_of_ne root (by decide),
      append_ne_of_ne root (by decide)⟩
  · simp only [List.mem_cons, List.not_mem_nil, or_false]
    push_neg
    exact ⟨append_ne_of_ne root (by decide), append_ne_of_ne root (by decide)⟩
  · simp only [List.mem_cons, List.not_mem_nil, or_false]
    push_neg
    exact append_ne_of_ne root (by decide)

/-- C4: the patch applicator is a three-way check-then-act. With every patch
file present: when no patch is conflicting the stage succeeds, the real
`git apply` commands it issues are exactly those for the patches whose
forward check was clean (the already-applied ones are skipped), and a second
run straight after is a complete no-op that succeeds (idempotence); when the
first conflicting patch is reached the stage fails with that patch's
identity and forward-check diagnostic, and no application of it is ever
attempted. -/
theorem apply_patches_three_way (root : String) (w : World)
    (hex : ∀ p ∈ UNICORN_PATCHES root, w.pathExists p = true) :
    ((∀ p ∈ UNICORN_PATCHES root, w.patchState p ≠ PatchState.conflicting) →
      (apply_emscripten_patches root w).2.2 = Except.ok () ∧
      (apply_emscripten_patches root w).2.1 =
        ((UNICORN_PATCHES root).filter
          (fun p => w.patchState p == PatchState.notApplied)).flatMap
          (gitApplyEvents root) ∧
      apply_emscripten_patches root ((apply_emscripten_patches root w).1) =
        ((apply_emscripten_patches root w).1, [], Except.ok ())) ∧
    (∀ as p bs, UNICORN_PATCHES root = as ++ p :: bs →
      (∀ q ∈ as, w.patchState q ≠ PatchState.conflicting) →
      w.patchState p = PatchState.conflicting →
      (apply_emscripten_patches root w).2.2 =
        Except.error (Err.runtimeError ("Failed to apply patch " ++ p ++ ": " ++
          pyStripString (w.patchFwdErr p))) ∧
      Event.runCmd ["git", "apply", p] (UNICORN_DIR root) none ∉
        (apply_emscripten_patches root w).2.1) := by
  constructor
  · intro hnc
    have hsucc := applyPatchesGo_success root (UNICORN_PATCHES root) w
      (unicorn_patches_nodup root) (fun p hp => ⟨hex p hp, hnc p hp⟩)
    refine ⟨hsucc.1, hsucc.2.1, ?_⟩
    apply applyPatchesGo_all_applied
    intro p hp
    constructor
    · rw [show (apply_emscripten_patches root w).1 =
        (applyPatchesGo root w (UNICORN_PATCHES root)).1 from rfl,
        applyPatchesGo_pathExists]
      exact hex p hp
    · exact hsucc.2.2 p hp
  · intro as p bs hsplit hnca hc
    have hnd : (as ++ p :: bs).Nodup := hsplit ▸ unicorn_patches_nodup root
    have hpmem : p ∈ UNICORN_PATCHES root := by
      rw [hsplit]
      exact List.mem_append_right _ (List.mem_cons_self _ _)
    have hconf := applyPatchesGo_conflict root as w p bs hnd
      (fun q hq => ⟨hex q (by rw [hsplit]; exact List.mem_append_left _ hq), hnca q hq⟩)
      (hex p hpmem) hc
    constructor
    · rw [show apply_emscripten_patches root w =
        applyPatchesGo root w (UNICORN_PATCHES root) from rfl, hsplit]
      exact hconf.1
    · rw [show apply_emscripten_patches root w =
        applyPatchesGo root w (UNICORN_PATCHES root) from rfl, hsplit, hconf.2]
      intro hmem
      rw [List.mem_flatMap] at hmem
      obtain ⟨q, hq, hin⟩ := hmem
      have hqas : q ∈ as := List.mem_of_mem_filter hq
      have hpq : p = q := by
        simp only [gitApplyEvents, List.mem_cons, List.not_mem_nil, or_false] at hin
        rcases hin with hin | hin
        · exact Event.noConfusion hin
        · have h1 : (["git", "apply", p] : List String) = ["git", "apply", q] := by
            injection hin
          simpa using h1
      subst hpq
      exact (List.nodup_append.mp hnd).2.2 hqas (List.mem_cons_self _ _)

/-- Concrete world: every patch file exists and none is applied yet. -/
def WP : World := { W0 with patchState := fun _ => PatchState.notApplied }

/-- C4 witness: from a fresh tree the stage succeeds and a second run is a
no-op. -/
theorem apply_patches_three_way_witness :
    (apply_emscripten_patches "/r" WP).2.2 = Except.ok () ∧
    apply_emscripten_patches "/r" ((apply_emscripten_patches "/r" WP).1) =
      ((apply_emscripten_patches "/r" WP).1, [], Except.ok ()) := by
  have h := (apply_patches_three_way "/r" WP (fun p _ => rfl)).1
    (fun p _ h => PatchState.noConfusion h)
  exact ⟨h.1, h.2.2⟩

/-! ## Driver theorems -/

/-- C8: the driver exits 0 or 1, and nothing else; it exits 0 when the
selected action's pipeline succeeds; a missing action token or an
unrecognized one prints usage and exits 1; and every propagated failure —
validation, missing tool, missing patch file, missing artifact, or a
non-zero external command — exits 1 with a human-readable `Error:` message
on the error stream. -/
theorem main_exit_codes (root : String) (w : World) (argv0 : String)
    (args : List String) :
    ((mainRun root w argv0 args).2.2 = 0 ∨ (mainRun root w argv0 args).2.2 = 1) ∧
    (∀ action rest, args = action :: rest →
      ((action = "patch" ∧ (patchAction root w).2.2 = Except.ok ()) ∨
       (action = "build" ∧ (buildAction root w (pySorted rest)).2.2 = Except.ok ())) →
      (mainRun root w argv0 args).2.2 = 0) ∧
    (args = [] → mainRun root w argv0 args = (w, usageEvents argv0, 1)) ∧
    (∀ action rest, args = action :: rest → action ≠ "patch" → action ≠ "build" →
      mainRun root w argv0 args = (w, usageEvents argv0, 1)) ∧
    (∀ action rest e, args = action :: rest →
      ((action = "patch" ∧ (patchAction root w).2.2 = Except.error e) ∨
       (action = "build" ∧ (buildAction root w (pySorted rest)).2.2 = Except.error e)) →
      (mainRun root w argv0 args).2.2 = 1 ∧
      Event.printErr ("Error: " ++ errStr e) ∈ (mainRun root w argv0 args).2.1) := by
  cases args with
  | nil =>
      refine ⟨Or.inr rfl, ?_, fun _ => rfl, ?_, ?_⟩
      · intro action rest h _
        exact List.noConfusion h
      · intro action rest h _ _
        exact List.noConfusion h
      · intro action rest e h _
        exact List.noConfusion h
  | cons action rest =>
      by_cases hpa : action = "patch"
      · subst hpa
        rcases hpx : patchAction root w with ⟨w1, evs, r⟩
        cases r with
        | ok u =>
            cases u
            have hred : mainRun root w argv0 ("patch" :: rest) =
                (w1, evs ++ [Event.printOut "Patches and constants regenerated."], 0) := by
              simp [mainRun, hpx]
            refine ⟨Or.inl (by rw [hred]), ?_, ?_, ?_, ?_⟩
            · intro a r h _
              rw [hred]
            · intro h
              exact List.noConfusion h
            · intro a r h h1 _
              injection h with ha _
              exact absurd ha.symm h1
            · intro a r e h hfail
              injection h with ha _
              rcases hfail with ⟨_, hErr⟩ | ⟨hab, _⟩
              · simp at hErr
              · rw [← ha] at hab
                exact absurd hab (by decide)
        | error er =>
            have hred : mainRun root w argv0 ("patch" :: rest) =
                (w1, evs ++ [Event.printErr ("Error: " ++ errStr er)], 1) := by
              simp [mainRun, hpx]
            refine ⟨Or.inr (by rw [hred]), ?_, ?_, ?_, ?_⟩
            · intro a r h hsucc
              injection h with ha _
              rcases hsucc with ⟨_, hok⟩ | ⟨hab, _⟩
              · simp at hok
              · rw [← ha] at hab
                exact absurd hab (by decide)
            · intro h
              exact List.noConfusion h
            · intro a r h h1 _
              injection h with ha _
              exact absurd ha.symm h1
            · intro a r e h hfail
              injection h with ha hr
              have he : e = er := by
                rcases hfail with ⟨_, hErr⟩ | ⟨hab, _⟩
                · simpa using hErr.symm
                · rw [← ha] at hab
                  exact absurd hab (by decide)
              subst he
              refine ⟨by rw [hred], ?_⟩
              rw [hred]
              exact List.mem_append_right _ (List.mem_cons_self _ _)
      · by_cases hba : action = "build"
        · subst hba
          rcases hbx : buildAction root w (pySorted rest) with ⟨w1, evs, r⟩
          cases r with
          | ok u =>
              cases u
              have hred : mainRun root w argv0 ("build" :: rest) = (w1, evs, 0) := by
                simp [mainRun, hbx]
              refine ⟨Or.inl (by rw [hred]), ?_, ?_, ?_, ?_⟩
              · intro a r h _
                injection h with ha hr
                subst hr
                rw [hred]
              · intro h
                exact List.noConfusion h
              · intro a r h _ h2
                injection h with ha _
                exact absurd ha.symm h2
              · intro a r e h hfail
                injection h with ha hr
                subst hr
                rcases hfail with ⟨hab, _⟩ | ⟨_, hErr⟩
                · rw [← ha] at hab
                  exact absurd hab (by decide)
                · rw [hbx] at hErr
                  simp at hErr
          | error er =>
              have hred : mainRun root w argv0 ("build" :: rest) =
                  (w1, evs ++ [Event.printErr ("Error: " ++ errStr er)], 1) := by
                simp [mainRun, hbx]
              refine ⟨Or.inr (by rw [hred]), ?_, ?_, ?_, ?_⟩
              · intro a r h hsucc
                injection h with ha hr
                subst hr
                rcases hsucc with ⟨hab, _⟩ | ⟨_, hok⟩
                · rw [← ha] at hab
                  exact absurd hab (by decide)
                · rw [hbx] at hok
                  simp at hok
              · intro h
                exact List.noConfusion h
              · intro a r h _ h2
                injection h with ha _
                exact absurd ha.symm h2
              · intro a r e h hfail
                injection h with ha hr
                subst hr
                have he : e = er := by
                  rcases hfail with ⟨hab, _⟩ | ⟨_, hErr⟩
                  · rw [← ha] at hab
                    exact absurd hab (by decide)
                  · rw [hbx] at hErr
                    simpa using hErr.symm
                subst he
                refine ⟨by rw [hred], ?_⟩
                rw [hred]
                exact List.mem_append_right _ (List.mem_cons_self _ _)
        · have hred : mainRun root w argv0 (action :: rest) =
              (w, usageEvents argv0, 1) := by
            simp [mainRun, hpa, hba]
          refine ⟨Or.inr (by rw [hred]), ?_, ?_, ?_, ?_⟩
          · intro a r h hsucc
            injection h with ha _
            rcases hsucc with ⟨hab, _⟩ | ⟨hab, _⟩
            · exact absurd (ha.trans hab) hpa
            · exact absurd (ha.trans hab) hba
          · intro h
            exact List.noConfusion h
          · intro a r h _ _
            exact hred
          · intro a r e h hfail
            injection h with ha _
            rcases hfail with ⟨hab, _⟩ | ⟨hab, _⟩
            · exact absurd (ha ▸ hab) hpa
            · exact absurd (ha ▸ hab) hba

/-- C8 witness: concrete invocations — an unrecognized action exits 1, a
successful maintenance action exits 0, a missing action exits 1. -/
theorem main_exit_codes_witness :
    (mainRun "/r" W0 "build.py" ["frobnicate"]).2.2 = 1 ∧
    (mainRun "/r" W0 "build.py" ["patch"]).2.2 = 0 ∧
    (mainRun "/r" W0 "build.py" []).2.2 = 1 := by
  refine ⟨?_, ?_, ?_⟩
  · have h := (main_exit_codes "/r" W0 "build.py" ["frobnicate"]).2.2.2.1
      "frobnicate" [] rfl (by decide) (by decide)
    rw [h]
  · exact (main_exit_codes "/r" W0 "build.py" ["patch"]).2.1 "patch" [] rfl
      (Or.inl ⟨rfl, rfl⟩)
  · have h := (main_exit_codes "/r" W0 "build.py" []).2.2.1 rfl
    rw [h]

/-- C10: the targets supplied after the `patch` action token are ignored
outright — the run is identical whatever they are, they are never validated,
and a successful maintenance pipeline exits 0 even for tokens outside the
architecture catalog. -/
theorem patch_ignores_targets (root : String) (w : World) (argv0 : String)
    (ts₁ ts₂ : List String) :
    mainRun root w argv0 ("patch" :: ts₁) = mainRun root w argv0 ("patch" :: ts₂) ∧
    ((patchAction root w).2.2 = Except.ok () →
      (mainRun root w argv0 ("patch" :: ts₁)).2.2 = 0) := by
  constructor
  · rfl
  · intro h
    rcases hpx : patchAction root w with ⟨w1, evs, r⟩
    rw [hpx] at h
    simp only at h
    subst h
    simp [mainRun, hpx]

/-- C10 witness: the maintenance action with the unknown token `zzz` runs to
success and exits 0 on a world where it succeeds, although `zzz` would fail
validation. -/
theorem patch_ignores_targets_witness :
    (patchAction "/r" W0).2.2 = Except.ok () ∧
    (mainRun "/r" W0 "build.py" ("patch" :: ["zzz"])).2.2 = 0 ∧
    validate_targets ["zzz"] ≠ Except.ok () := by
  refine ⟨rfl, (patch_ignores_targets "/r" W0 "build.py" ["zzz"] []).2 rfl, ?_⟩
  intro h
  unfold validate_targets at h
  rw [if_neg (by decide)] at h
  exact Except.noConfusion h
